import Mathlib

/-!
Verification of the response-scanning core of `b3_MCP_Tool_Simple/agent.py`.

The embedded code is the helper `save_image_from_response(events, output_filename)`,
the final-text concatenation loop of `main`, and the top-level exception dispatch
of the `__main__` block.  External events are modelled by a shallow data model:
an `Event` optionally carries `content`, whose `parts` is an optional list; a
`ContentPart` optionally carries a `text` string and optionally a `function_response`;
a function response holds a string-keyed mapping (association list) whose
"content" entry is a list of items; an `Item` is a mapping with optional
`type` and `data` string fields.  Python truthiness of an optional string
(`None` and `""` are falsy) is `strTruthy`.  `base64.b64decode` is modelled
after CPython's `binascii.a2b_base64` in its default non-strict mode
(invalid characters are discarded, padding that completes a quad stops the
scan, a leftover quad position raises); C bit shifts are written with
division/multiplication by powers of two, which agree exactly here because
the combined bit ranges are disjoint.  The file system is an association
list from path to byte list, so a run can be observed as (new fs, result).
-/

/-- One entry of a tool response's "content" list: a mapping with optional
`type` and `data` fields (`item.get("type")`, `item.get("data")`). -/
structure Item where
  type : Option String
  data : Option String
deriving DecidableEq, Repr

/-- The `function_response.response` mapping, as an association list; only the
"content" key is ever consulted, with `[]` as default. -/
structure FunctionResponse where
  response : List (String × List Item)
deriving DecidableEq, Repr

/-- One content part: an optional text fragment and an optional tool response.
`none` covers both an absent attribute and a falsy one. -/
structure ContentPart where
  text : Option String
  function_response : Option FunctionResponse
deriving DecidableEq, Repr

/-- An event's `content`, optionally carrying the ordered parts list
(`content.parts` may be `None`). -/
structure Content where
  parts : Option (List ContentPart)
deriving DecidableEq, Repr

/-- One event of the materialized response stream. -/
structure Event where
  content : Option Content
deriving DecidableEq, Repr

/-- Python truthiness of an optional string: `None` and `""` are falsy. -/
def strTruthy : Option String → Bool
| none => false
| some s => s ≠ ""

/-- The mapping lookup `fr.response.get("content", [])`. -/
def respContent (fr : FunctionResponse) : List Item :=
  match fr.response.find? (fun kv => kv.fst == "content") with
  | some kv => kv.snd
  | none => []

/-- The condition of the innermost loop:
`item.get("type") == "image" and item.get("data")`. -/
def itemMatches (it : Item) : Bool :=
  it.type == some "image" && strTruthy it.data

/-- The innermost loop of `save_image_from_response`: first item of a
response's content whose type is "image" with truthy data; `break` on hit. -/
def scanItems : List Item → Option String
| [] => none
| it :: rest => if itemMatches it then it.data else scanItems rest

/-- One iteration of the middle loop: a part carrying a truthy
`function_response` reruns the item scan, overwriting `image_data_b64` on a
hit and keeping the old value otherwise. -/
def partScan (p : ContentPart) (acc : Option String) : Option String :=
  match p.function_response with
  | none => acc
  | some fr =>
    match scanItems (respContent fr) with
    | some d => some d
    | none => acc

/-- The middle loop of `save_image_from_response` over an event's parts: no
break at this level, so the whole parts list is traversed. -/
def scanParts (ps : List ContentPart) (acc : Option String) : Option String :=
  ps.foldl (fun a p => partScan p a) acc

/-- The outer loop of `save_image_from_response`: events are scanned in order;
the guard `event.content and event.content.parts` skips events with absent
content, absent parts or an empty parts list; after an event's parts are
scanned, `if image_data_b64: break` stops the event loop.  Since the break
always fires in the event that set the data, the accumulator is `None` at the
start of every event. -/
def scanEvents : List Event → Option String
| [] => none
| e :: rest =>
  match e.content with
  | none => scanEvents rest
  | some c =>
    match c.parts with
    | none => scanEvents rest
    | some [] => scanEvents rest
    | some (p :: ps) =>
      match scanParts (p :: ps) none with
      | some d => some d
      | none => scanEvents rest

/-- Base64 value of one character under the standard alphabet, `none` for a
character outside it (the `table_a2b_base64` row, with -1 as `none`). -/
def b64charVal (c : Char) : Option Nat :=
  if 'A' ≤ c ∧ c ≤ 'Z' then some (c.toNat - 65)
  else if 'a' ≤ c ∧ c ≤ 'z' then some (c.toNat - 97 + 26)
  else if '0' ≤ c ∧ c ≤ '9' then some (c.toNat - 48 + 52)
  else if c = '+' then some 62
  else if c = '/' then some 63
  else none

/-- CPython `binascii.a2b_base64` (non-strict) main loop.  State: position in
the current quad, pending bits of the previous character, count of padding
characters seen on a quad position of at least 2, output so far.  A non-alphabet
character is discarded; enough padding to complete a quad ends the whole scan
successfully; input ending mid-quad is an error. -/
def a2bLoop : List Char → Nat → Nat → Nat → List Nat → Except String (List Nat)
| [], 0, _, _, out => .ok out
| [], 1, _, _, _ =>
  .error "Invalid base64-encoded string: number of data characters cannot be 1 more than a multiple of 4"
| [], _, _, _, _ => .error "Incorrect padding"
| c :: rest, quadPos, leftchar, pads, out =>
  if c = '=' then
    if 2 ≤ quadPos then
      if 4 ≤ quadPos + (pads + 1) then .ok out
      else a2bLoop rest quadPos leftchar (pads + 1) out
    else a2bLoop rest quadPos leftchar pads out
  else
    match b64charVal c with
    | none => a2bLoop rest quadPos leftchar pads out
    | some v =>
      match quadPos with
      | 0 => a2bLoop rest 1 v 0 out
      | 1 => a2bLoop rest 2 (v % 16) 0 (out ++ [leftchar * 4 + v / 16])
      | 2 => a2bLoop rest 3 (v % 4) 0 (out ++ [leftchar * 16 + v / 4])
      | _ => a2bLoop rest 0 0 0 (out ++ [leftchar * 64 + v])

/-- `base64.b64decode` on a `str` argument: the string must be pure ASCII
(else `ValueError`), then `binascii.a2b_base64` runs in non-strict mode. -/
def b64decode (s : String) : Except String (List Nat) :=
  if s.toList.all (fun c => c.toNat < 128) then a2bLoop s.toList 0 0 0 []
  else .error "string argument should contain only ASCII characters"

/-- Standard base64 alphabet character of a 6-bit value. -/
def b64alphabet (v : Nat) : Char :=
  if v < 26 then Char.ofNat (65 + v)
  else if v < 52 then Char.ofNat (97 + (v - 26))
  else if v < 62 then Char.ofNat (48 + (v - 52))
  else if v = 62 then '+'
  else '/'

/-- Standard base64 encoding (`base64.b64encode`) of a byte list: 3 bytes to
4 characters, a final 1- or 2-byte group padded with `=`. -/
def b64encode : List Nat → List Char
| [] => []
| [b1] => [b64alphabet (b1 / 4), b64alphabet (b1 % 4 * 16), '=', '=']
| [b1, b2] =>
  [b64alphabet (b1 / 4), b64alphabet (b1 % 4 * 16 + b2 / 16), b64alphabet (b2 % 16 * 4), '=']
| b1 :: b2 :: b3 :: rest =>
  b64alphabet (b1 / 4) :: b64alphabet (b1 % 4 * 16 + b2 / 16) ::
    b64alphabet (b2 % 16 * 4 + b3 / 64) :: b64alphabet (b3 % 64) :: b64encode rest

/-- The observable file system: an association list from path to contents;
the first binding for a path is current. -/
def FS := List (String × List Nat)
deriving DecidableEq, Repr

/-- `Path(output_filename).write_bytes(image_bytes)`: overwrite the path. -/
def FS.write (fs : FS) (path : String) (bytes : List Nat) : FS :=
  (path, bytes) :: fs

/-- What a call to `save_image_from_response` does: either the function
returns a status string normally, or an exception propagates to the caller. -/
inductive SaveResult where
| returned (msg : String)
| raised (err : String)
deriving DecidableEq, Repr

/-- The literal not-found status string of the source. -/
def notFoundMsg : String := "No image data found in the agent's tool response."

/-- The success status string; `output_path.resolve()` is abstracted to the
given filename. -/
def savedMsg (p : String) : String := "Image successfully saved to: " ++ p

/-- `save_image_from_response(events, output_filename)` over an explicit file
system: scan the events; on no hit return the not-found status; on a hit,
decode the base64 data (an exception propagates, leaving the file system
untouched) and only then write the decoded bytes and return the success
status. -/
def save_image_from_response (events : List Event) (fs : FS) (output_filename : String) :
    FS × SaveResult :=
  match scanEvents events with
  | none => (fs, .returned notFoundMsg)
  | some d =>
    match b64decode d with
    | .error e => (fs, .raised e)
    | .ok bytes => (FS.write fs output_filename bytes, .returned (savedMsg output_filename))

/-- One iteration of the inner text loop of `main`:
`if part.text: final_response_text += part.text`. -/
def textStep (a : String) (p : ContentPart) : String :=
  match p.text with
  | none => a
  | some t => if t = "" then a else a ++ t

/-- One iteration of the outer text loop of `main`: the same
`event.content and event.content.parts` guard, then the inner loop. -/
def eventTextStep (acc : String) (e : Event) : String :=
  match e.content with
  | none => acc
  | some c =>
    match c.parts with
    | none => acc
    | some ps => ps.foldl textStep acc

/-- The final-text loop of `main`: every truthy `part.text` in event order
then part order is appended to the accumulator, starting from "". -/
def extractText (events : List Event) : String :=
  events.foldl eventTextStep ""

/-- The whitespace set of Python's `str.strip()` (ASCII part). -/
def pyIsSpace (c : Char) : Bool :=
  c = ' ' || c = '\t' || c = '\n' || c = '\r' || c = '\x0b' || c = '\x0c'

/-- Python's `str.strip()`: drop leading and trailing whitespace. -/
def pyStrip (s : String) : String :=
  String.mk (((s.toList.dropWhile pyIsSpace).reverse.dropWhile pyIsSpace).reverse)

/-- What `asyncio.run(main())` may do, seen from the `__main__` block: finish
normally, raise a `BaseExceptionGroup`, raise some other `Exception`, or raise
a `BaseException` that is not an `Exception` (matched by neither clause). -/
inductive RunOutcome where
| ok
| baseExceptionGroup (msgs : List String)
| otherException (msg : String)
| otherBaseException (msg : String)
deriving DecidableEq, Repr

/-- Outcome of the `__main__` block: the process finishes having printed the
given lines, or an exception escapes uncaught. -/
inductive TopLevelResult where
| completed (printed : List String)
| reraised (msg : String)
deriving DecidableEq, Repr

/-- The `try/except` dispatch of the `__main__` block (the prints of a normal
`main()` run are abstracted away): a `BaseExceptionGroup` is suppressed with
the two informational lines; any other `Exception` is reported and not
re-raised; a non-`Exception` `BaseException` matches neither clause. -/
def mainEntry : RunOutcome → TopLevelResult
| .ok => .completed []
| .baseExceptionGroup _ =>
  .completed ["✅ Script completed and image saved successfully.",
    "⚠️ Non-fatal cleanup error caught during MCP stdio shutdown. This can be safely ignored."]
| .otherException m => .completed ["An unexpected fatal error occurred: " ++ m]
| .otherBaseException m => .reraised m

/-- The parts reachable by the scan of an event (empty when content or parts
is absent). -/
def partsOf (e : Event) : List ContentPart :=
  match e.content with
  | none => []
  | some c =>
    match c.parts with
    | none => []
    | some ps => ps

/-- The items reachable by the scan of a part (empty when the part has no
truthy function response). -/
def itemsOf (p : ContentPart) : List Item :=
  match p.function_response with
  | none => []
  | some fr => respContent fr

/-- First matching image datum of a single part, in item order. -/
def partImage (p : ContentPart) : Option String :=
  match p.function_response with
  | none => none
  | some fr => scanItems (respContent fr)

/-- Modelled from the claim's wording: the first image item in event order,
then part order within the event, then item order within the part. -/
def firstImageClaim (events : List Event) : Option String :=
  events.findSome? (fun e => (partsOf e).findSome? partImage)

/-- Image datum an event actually contributes: the first matching item of the
last part (in part order) that has one. -/
def lastPartImage (e : Event) : Option String :=
  ((partsOf e).reverse).findSome? partImage

/-- The selection the code actually performs: first event (in event order)
contributing an image; within it, the last part with a matching item wins,
and within that part the first matching item. -/
def amendedImageSpec (events : List Event) : Option String :=
  events.findSome? lastPartImage

/-- Modelled from the spec: standard (RFC 4648) base64 validity — length a
multiple of four, at most two trailing `=` padding characters, and every
character before the padding from the base64 alphabet. -/
def validStdBase64 (s : String) : Bool :=
  let l := s.toList
  let pads := (l.reverse.takeWhile (fun c => c = '=')).length
  decide (l.length % 4 = 0) && decide (pads ≤ 2) &&
    (l.take (l.length - pads)).all (fun c => (b64charVal c).isSome)

/-- The text fragment a part contributes to the final answer: its text field
when truthy. -/
def partText (p : ContentPart) : Option String :=
  match p.text with
  | none => none
  | some t => if t = "" then none else some t

/-- The text fragments the spec says are concatenated: in event order then
part order, every non-empty text field. -/
def textFragments (events : List Event) : List String :=
  events.flatMap (fun e => (partsOf e).filterMap partText)

/-- Direct concatenation of a list of strings, with no separator. -/
def concatTexts : List String → String
| [] => ""
| s :: rest => s ++ concatTexts rest

/-- A part holding only a tool response whose content is a single image item
with the given data string. -/
def imgPart (s : String) : ContentPart :=
  ⟨none, some ⟨[("content", [⟨some "image", some s⟩])]⟩⟩

/-- An event holding exactly one part with exactly one image item. -/
def mkImageEvent (s : String) : Event :=
  ⟨some ⟨some [imgPart s]⟩⟩

/-- A single event with two parts, each carrying one image item: the first
part holds data "AAAA", the second holds data "BBBB". -/
def twoPartEvent : Event :=
  ⟨some ⟨some [imgPart "AAAA", imgPart "BBBB"]⟩⟩

/-- The end-to-end scenario of the spec: a content-less event, then a text
part "Here is " with a text-only tool response, then a text part
"your image." with an image tool response whose data encodes "ABC". -/
def ev5 : List Event :=
  [⟨none⟩,
   ⟨some ⟨some [⟨some "Here is ", none⟩,
     ⟨none, some ⟨[("content", [⟨some "text", none⟩])]⟩⟩]⟩⟩,
   ⟨some ⟨some [⟨some "your image.", none⟩, imgPart "QUJD"]⟩⟩]

/-- An event with text, a text-typed response item and an image item whose
data is empty: nothing in it satisfies the image-extraction condition. -/
def noImgEvent : Event :=
  ⟨some ⟨some [⟨some "hello", none⟩,
    ⟨none, some ⟨[("content", [⟨some "text", some "x"⟩, ⟨some "image", some ""⟩])]⟩⟩]⟩⟩

/-- Unfolding one step of the middle loop: a part overwrites the accumulator
exactly when it has a matching item. -/
theorem partScan_eq (p : ContentPart) (acc : Option String) :
    partScan p acc = match partImage p with
      | some d => some d
      | none => acc := by
  unfold partScan partImage
  cases p.function_response with
  | none => rfl
  | some fr => cases scanItems (respContent fr) <;> rfl

/-- The middle loop without a part-level break selects the last part with a
matching item: it equals a first-match search over the reversed parts list. -/
theorem scanParts_reverse (ps : List ContentPart) (acc : Option String) :
    scanParts ps acc = match ps.reverse.findSome? partImage with
      | some d => some d
      | none => acc := by
  induction ps generalizing acc with
  | nil => rfl
  | cons p ps ih =>
    have h1 : scanParts (p :: ps) acc = scanParts ps (partScan p acc) := rfl
    rw [h1, ih, List.reverse_cons, List.findSome?_append]
    cases h : ps.reverse.findSome? partImage with
    | some d => simp
    | none =>
      simp only [Option.none_or, partScan_eq]
      cases hp : partImage p <;> simp [List.findSome?_cons, hp]

/-- The outer loop is a first-match search over events, each event
contributing the image of its last matching part. -/
theorem scanEvents_eq (events : List Event) :
    scanEvents events = events.findSome? lastPartImage := by
  induction events with
  | nil => rfl
  | cons e rest ih =>
    rcases e with ⟨_ | ⟨_ | (_ | ⟨p, ps⟩)⟩⟩
    · simpa [scanEvents, List.findSome?_cons, lastPartImage, partsOf] using ih
    · simpa [scanEvents, List.findSome?_cons, lastPartImage, partsOf] using ih
    · simpa [scanEvents, List.findSome?_cons, lastPartImage, partsOf] using ih
    · simp only [scanEvents, List.findSome?_cons, lastPartImage, partsOf,
        scanParts_reverse]
      cases h : (p :: ps).reverse.findSome? partImage with
      | some d => simp [h]
      | none => simpa [h] using ih

/-- Claim C1 (counterexample): for a single event holding two parts, the first
with image data "AAAA" and the second with image data "BBBB", the claimed
event-then-part-then-item first-match selection yields "AAAA", but the scan of
`save_image_from_response` yields "BBBB": the part loop has no break, so a
later part of the same event overwrites an earlier hit. -/
theorem c1_counterexample :
    scanEvents [twoPartEvent] ≠ firstImageClaim [twoPartEvent] ∧
    firstImageClaim [twoPartEvent] = some "AAAA" ∧
    scanEvents [twoPartEvent] = some "BBBB" := by
  refine ⟨?_, by decide, by decide⟩
  decide

/-- Claim C1 (amended): `save_image_from_response` extracts at most one image:
its scan returns the first matching image item, in item order, of the LAST
part (in part order) holding a matching item, within the FIRST event (in event
order) holding any matching item.  Finding an image stops the item scan and
the event scan, but the part scan still traverses the rest of the current
event's parts. -/
theorem c1_extraction_order :
    ∀ events : List Event, scanEvents events = amendedImageSpec events :=
  fun events => scanEvents_eq events

/-- An item list in which every item fails the image condition yields no hit. -/
theorem scanItems_eq_none (items : List Item)
    (h : ∀ it ∈ items, itemMatches it = false) : scanItems items = none := by
  induction items with
  | nil => rfl
  | cons it rest ih =>
    rw [scanItems, if_neg (by simp [h it (List.mem_cons_self it rest)])]
    exact ih (fun x hx => h x (List.mem_cons_of_mem _ hx))

/-- Claim C3 (confirmed): when no reachable response item has type "image"
with non-empty data, `save_image_from_response` returns the literal not-found
status string, leaves the file system unchanged (writes no file) and raises
no exception. -/
theorem c3_not_found (events : List Event) (fs : FS) (fname : String)
    (h : ∀ e ∈ events, ∀ p ∈ partsOf e, ∀ it ∈ itemsOf p, itemMatches it = false) :
    save_image_from_response events fs fname = (fs, .returned notFoundMsg) := by
  have hscan : scanEvents events = none := by
    rw [scanEvents_eq, List.findSome?_eq_none_iff]
    intro e he
    rw [lastPartImage, List.findSome?_eq_none_iff]
    intro p hp
    have hp' : p ∈ partsOf e := List.mem_reverse.mp hp
    unfold partImage
    cases hf : p.function_response with
    | none => rfl
    | some fr =>
      apply scanItems_eq_none
      intro it hit
      have hi : itemsOf p = respContent fr := by simp [itemsOf, hf]
      exact h e he p hp' it (hi ▸ hit)
  simp [save_image_from_response, hscan]

/-- Witness for C3 at a concrete input: an event with a text part, a
text-typed item and an image item with empty data yields the not-found
status on an empty file system, which stays empty. -/
theorem c3_witness :
    (∀ e ∈ [noImgEvent], ∀ p ∈ partsOf e, ∀ it ∈ itemsOf p, itemMatches it = false) ∧
    save_image_from_response [noImgEvent] [] "tiny_image.png" =
      ([], .returned notFoundMsg) :=
  ⟨by decide, c3_not_found [noImgEvent] [] "tiny_image.png" (by decide)⟩

/-- Concatenation distributes over list append. -/
theorem concatTexts_append (l1 l2 : List String) :
    concatTexts (l1 ++ l2) = concatTexts l1 ++ concatTexts l2 := by
  induction l1 with
  | nil => simp [concatTexts]
  | cons s l ih => simp [concatTexts, ih, String.append_assoc]

/-- The inner text loop appends exactly the truthy text fields of the parts. -/
theorem textFold_eq (ps : List ContentPart) (a : String) :
    ps.foldl textStep a = a ++ concatTexts (ps.filterMap partText) := by
  induction ps generalizing a with
  | nil => simp [concatTexts]
  | cons p ps ih =>
    rw [List.foldl_cons, ih, List.filterMap_cons]
    cases hp : p.text with
    | none => simp [textStep, partText, hp]
    | some t =>
      by_cases ht : t = ""
      · simp [textStep, partText, hp, ht]
      · simp [textStep, partText, hp, ht, concatTexts, String.append_assoc]

/-- The outer text loop appends the fragments of all events in order. -/
theorem extractText_fold (events : List Event) (acc : String) :
    events.foldl eventTextStep acc = acc ++ concatTexts (textFragments events) := by
  induction events generalizing acc with
  | nil => simp [textFragments, concatTexts]
  | cons e rest ih =>
    rw [List.foldl_cons, ih]
    rcases e with ⟨_ | ⟨_ | ps⟩⟩
    · simp [eventTextStep, textFragments, partsOf, concatTexts]
    · simp [eventTextStep, textFragments, partsOf, concatTexts]
    · have hred : eventTextStep acc ⟨some ⟨some ps⟩⟩ = ps.foldl textStep acc := rfl
      rw [hred, textFold_eq]
      simp [textFragments, partsOf, concatTexts_append, String.append_assoc]

/-- Claim C6 (confirmed): the final text is the direct concatenation, in
event order then part order, of exactly the non-empty text fields; parts
without a truthy text field (such as tool-response or image parts)
contribute nothing, and no separator is inserted. -/
theorem c6_text_concatenation (events : List Event) :
    extractText events = concatTexts (textFragments events) := by
  unfold extractText
  rw [extractText_fold]
  simp

/-- Claim C7 (confirmed): a response item yields the image only if its type
is "image" and its data is present and non-empty; an item failing either
condition is skipped, the scan continuing past it unchanged. -/
theorem c7_item_filter :
    (∀ (it : Item) (pre post : List Item), itemMatches it = false →
      scanItems (pre ++ it :: post) = scanItems (pre ++ post)) ∧
    (∀ (items : List Item) (d : String), scanItems items = some d →
      ∃ it ∈ items, it.type = some "image" ∧ it.data = some d ∧ d ≠ "") := by
  constructor
  · intro it pre post h
    induction pre with
    | nil =>
      simp only [List.nil_append]
      rw [scanItems, if_neg (by simp [h])]
    | cons q pre ih =>
      have h1 : scanItems ((q :: pre) ++ it :: post) =
          if itemMatches q then q.data else scanItems (pre ++ it :: post) := rfl
      have h2 : scanItems ((q :: pre) ++ post) =
          if itemMatches q then q.data else scanItems (pre ++ post) := rfl
      rw [h1, h2, ih]
  · intro items d
    induction items with
    | nil => intro h; exact absurd h (by simp [scanItems])
    | cons it rest ih =>
      intro h
      rw [scanItems] at h
      by_cases hm : itemMatches it = true
      · rw [if_pos (by simp [hm])] at h
        have hand := hm
        rw [itemMatches, Bool.and_eq_true] at hand
        have htype : it.type = some "image" := by
          have := hand.1
          simpa using this
        have hdata : strTruthy it.data = true := hand.2
        refine ⟨it, List.mem_cons_self it rest, htype, h, ?_⟩
        rw [h] at hdata
        simpa [strTruthy] using hdata
      · rw [if_neg (by simpa using hm)] at h
        obtain ⟨x, hmem, h1, h2, h3⟩ := ih h
        exact ⟨x, List.mem_cons_of_mem _ hmem, h1, h2, h3⟩

/-- Witness for C7 at concrete inputs: a text-typed item is skipped with the
scan continuing, and a hit on data "QUJD" comes from an image item with that
non-empty data. -/
theorem c7_witness :
    scanItems ([⟨some "text", none⟩] ++ ⟨some "image", some ""⟩ :: [⟨some "image", some "QUJD"⟩]) =
      scanItems ([⟨some "text", none⟩] ++ [⟨some "image", some "QUJD"⟩]) ∧
    (∃ it ∈ [(⟨some "image", some "QUJD"⟩ : Item)],
      it.type = some "image" ∧ it.data = some "QUJD" ∧ "QUJD" ≠ "") :=
  ⟨c7_item_filter.1 ⟨some "image", some ""⟩ [⟨some "text", none⟩]
      [⟨some "image", some "QUJD"⟩] (by decide),
   c7_item_filter.2 [⟨some "image", some "QUJD"⟩] "QUJD" (by decide)⟩

/-- Claim C10 (confirmed): a response mapping without a "content" key is
treated as the empty content list; a part whose response has no "content"
key leaves the scan unchanged; and an event with absent content, absent
parts or an empty parts list is skipped by the scan. -/
theorem c10_malformed_safe :
    (∀ fr : FunctionResponse,
      fr.response.find? (fun kv => kv.fst == "content") = none →
      respContent fr = []) ∧
    (∀ (p : ContentPart) (fr : FunctionResponse) (ps : List ContentPart) (acc : Option String),
      p.function_response = some fr → respContent fr = [] →
      scanParts (p :: ps) acc = scanParts ps acc) ∧
    (∀ (e : Event) (evs : List Event),
      e.content = none ∨ e.content = some ⟨none⟩ ∨ e.content = some ⟨some []⟩ →
      scanEvents (e :: evs) = scanEvents evs) := by
  refine ⟨?_, ?_, ?_⟩
  · intro fr h
    simp [respContent, h]
  · intro p fr ps acc hf hc
    have hp : partScan p acc = acc := by simp [partScan, hf, hc, scanItems]
    show scanParts ps (partScan p acc) = scanParts ps acc
    rw [hp]
  · intro e evs h
    rcases e with ⟨co⟩
    rcases h with h | h | h <;> simp only at h <;> subst h <;> rfl

/-- Witness for C10 at concrete inputs: a response keyed only by "other" is
treated as empty content, skipping its part, and a content-less event is
skipped. -/
theorem c10_witness :
    respContent ⟨[("other", [⟨some "image", some "QUJD"⟩])]⟩ = [] ∧
    scanParts [⟨none, some ⟨[("other", [⟨some "image", some "QUJD"⟩])]⟩⟩, imgPart "BBBB"] none =
      scanParts [imgPart "BBBB"] none ∧
    scanEvents [⟨none⟩, mkImageEvent "QUJD"] = scanEvents [mkImageEvent "QUJD"] :=
  ⟨c10_malformed_safe.1 ⟨[("other", [⟨some "image", some "QUJD"⟩])]⟩ (by decide),
   c10_malformed_safe.2.1 ⟨none, some ⟨[("other", [⟨some "image", some "QUJD"⟩])]⟩⟩
     ⟨[("other", [⟨some "image", some "QUJD"⟩])]⟩ [imgPart "BBBB"] none rfl (by decide),
   c10_malformed_safe.2.2 ⟨none⟩ [mkImageEvent "QUJD"] (Or.inl rfl)⟩

/-- Claim C5 (confirmed): on the three-event end-to-end scenario the trimmed
final text is "Here is your image." and the saved file holds exactly the
bytes of "ABC" (65, 66, 67), decoded from base64 "QUJD". -/
theorem c5_end_to_end :
    pyStrip (extractText ev5) = "Here is your image." ∧
    save_image_from_response ev5 [] "tiny_image.png" =
      ([("tiny_image.png", [65, 66, 67])], .returned (savedMsg "tiny_image.png")) := by
  constructor
  · rfl
  · decide

/-- Claim C8 (confirmed): at the top level a `BaseExceptionGroup` from the
run is suppressed with the two informational lines and does not escape, and
any other `Exception` is reported and not re-raised. -/
theorem c8_toplevel_dispatch :
    (∀ msgs : List String, mainEntry (.baseExceptionGroup msgs) =
      .completed ["✅ Script completed and image saved successfully.",
        "⚠️ Non-fatal cleanup error caught during MCP stdio shutdown. This can be safely ignored."]) ∧
    (∀ m : String, mainEntry (.otherException m) =
      .completed ["An unexpected fatal error occurred: " ++ m]) :=
  ⟨fun _ => rfl, fun _ => rfl⟩

/-- Every 6-bit value's alphabet character decodes back to the value, is not
the padding character, and is ASCII. -/
theorem alphaFacts : ∀ v : Nat, v < 64 →
    b64charVal (b64alphabet v) = some v ∧ b64alphabet v ≠ '=' ∧
      (b64alphabet v).toNat < 128 := by decide

/-- Decoder step on an alphabet character at quad position 0. -/
theorem a2bLoop_step0 (v : Nat) (hv : v < 64) (rest : List Char)
    (lc pads : Nat) (out : List Nat) :
    a2bLoop (b64alphabet v :: rest) 0 lc pads out = a2bLoop rest 1 v 0 out := by
  obtain ⟨h1, h2, _⟩ := alphaFacts v hv
  rw [a2bLoop, if_neg h2, h1]

/-- Decoder step on an alphabet character at quad position 1. -/
theorem a2bLoop_step1 (v : Nat) (hv : v < 64) (rest : List Char)
    (lc pads : Nat) (out : List Nat) :
    a2bLoop (b64alphabet v :: rest) 1 lc pads out =
      a2bLoop rest 2 (v % 16) 0 (out ++ [lc * 4 + v / 16]) := by
  obtain ⟨h1, h2, _⟩ := alphaFacts v hv
  rw [a2bLoop, if_neg h2, h1]

/-- Decoder step on an alphabet character at quad position 2. -/
theorem a2bLoop_step2 (v : Nat) (hv : v < 64) (rest : List Char)
    (lc pads : Nat) (out : List Nat) :
    a2bLoop (b64alphabet v :: rest) 2 lc pads out =
      a2bLoop rest 3 (v % 4) 0 (out ++ [lc * 16 + v / 4]) := by
  obtain ⟨h1, h2, _⟩ := alphaFacts v hv
  rw [a2bLoop, if_neg h2, h1]

/-- Decoder step on an alphabet character at quad position 3. -/
theorem a2bLoop_step3 (v : Nat) (hv : v < 64) (rest : List Char)
    (lc pads : Nat) (out : List Nat) :
    a2bLoop (b64alphabet v :: rest) 3 lc pads out =
      a2bLoop rest 0 0 0 (out ++ [lc * 64 + v]) := by
  obtain ⟨h1, h2, _⟩ := alphaFacts v hv
  rw [a2bLoop, if_neg h2, h1]

/-- First padding character at quad position 2 is only counted. -/
theorem a2bLoop_pad2 (rest : List Char) (lc : Nat) (out : List Nat) :
    a2bLoop ('=' :: rest) 2 lc 0 out = a2bLoop rest 2 lc 1 out := by
  rw [a2bLoop, if_pos rfl, if_pos (by omega), if_neg (by omega)]

/-- Second padding character at quad position 2 completes the quad. -/
theorem a2bLoop_pad2_done (rest : List Char) (lc : Nat) (out : List Nat) :
    a2bLoop ('=' :: rest) 2 lc 1 out = .ok out := by
  rw [a2bLoop, if_pos rfl, if_pos (by omega), if_pos (by omega)]

/-- A padding character at quad position 3 completes the quad. -/
theorem a2bLoop_pad3_done (rest : List Char) (lc : Nat) (out : List Nat) :
    a2bLoop ('=' :: rest) 3 lc 0 out = .ok out := by
  rw [a2bLoop, if_pos rfl, if_pos (by omega), if_pos (by omega)]

/-- Decoding the encoding of any byte list appends exactly those bytes. -/
theorem a2bLoop_b64encode : ∀ x : List Nat, (∀ b ∈ x, b < 256) →
    ∀ out : List Nat, a2bLoop (b64encode x) 0 0 0 out = .ok (out ++ x) := by
  intro x
  induction x using b64encode.induct with
  | case1 =>
    intro _ out
    simp [b64encode, a2bLoop]
  | case2 b1 =>
    intro hx out
    have hb : b1 < 256 := hx b1 (by simp)
    simp only [b64encode]
    rw [a2bLoop_step0 _ (by omega), a2bLoop_step1 _ (by omega),
      a2bLoop_pad2, a2bLoop_pad2_done]
    have e1 : b1 / 4 * 4 + b1 % 4 * 16 / 16 = b1 := by omega
    rw [e1]
  | case3 b1 b2 =>
    intro hx out
    have hb1 : b1 < 256 := hx b1 (by simp)
    have hb2 : b2 < 256 := hx b2 (by simp)
    simp only [b64encode]
    rw [a2bLoop_step0 _ (by omega), a2bLoop_step1 _ (by omega),
      a2bLoop_step2 _ (by omega), a2bLoop_pad3_done]
    have e1 : b1 / 4 * 4 + (b1 % 4 * 16 + b2 / 16) / 16 = b1 := by omega
    have e2 : (b1 % 4 * 16 + b2 / 16) % 16 * 16 + b2 % 16 * 4 / 4 = b2 := by omega
    rw [e1, e2, List.append_assoc]
    rfl
  | case4 b1 b2 b3 rest ih =>
    intro hx out
    have hb1 : b1 < 256 := hx b1 (by simp)
    have hb2 : b2 < 256 := hx b2 (by simp)
    have hb3 : b3 < 256 := hx b3 (by simp)
    have hrest : ∀ b ∈ rest, b < 256 := fun b hb => hx b (by simp [hb])
    simp only [b64encode]
    rw [a2bLoop_step0 _ (by omega), a2bLoop_step1 _ (by omega),
      a2bLoop_step2 _ (by omega), a2bLoop_step3 _ (by omega), ih hrest]
    have e1 : b1 / 4 * 4 + (b1 % 4 * 16 + b2 / 16) / 16 = b1 := by omega
    have e2 : (b1 % 4 * 16 + b2 / 16) % 16 * 16 + (b2 % 16 * 4 + b3 / 64) / 4 = b2 := by
      omega
    have e3 : (b2 % 16 * 4 + b3 / 64) % 4 * 64 + b3 % 64 = b3 := by omega
    rw [e1, e2, e3]
    simp

/-- The encoding of a byte list is pure ASCII. -/
theorem b64encode_ascii : ∀ x : List Nat, (∀ b ∈ x, b < 256) →
    (b64encode x).all (fun c => c.toNat < 128) = true := by
  intro x
  induction x using b64encode.induct with
  | case1 => intro _; rfl
  | case2 b1 =>
    intro hx
    have hb : b1 < 256 := hx b1 (by simp)
    simp only [b64encode, List.all_cons, List.all_nil, Bool.and_eq_true,
      decide_eq_true_eq]
    exact ⟨(alphaFacts _ (by omega)).2.2, (alphaFacts _ (by omega)).2.2,
      by decide, by decide, trivial⟩
  | case3 b1 b2 =>
    intro hx
    have hb1 : b1 < 256 := hx b1 (by simp)
    have hb2 : b2 < 256 := hx b2 (by simp)
    simp only [b64encode, List.all_cons, List.all_nil, Bool.and_eq_true,
      decide_eq_true_eq]
    exact ⟨(alphaFacts _ (by omega)).2.2, (alphaFacts _ (by omega)).2.2,
      (alphaFacts _ (by omega)).2.2, by decide, trivial⟩
  | case4 b1 b2 b3 rest ih =>
    intro hx
    have hb1 : b1 < 256 := hx b1 (by simp)
    have hb2 : b2 < 256 := hx b2 (by simp)
    have hb3 : b3 < 256 := hx b3 (by simp)
    have hrest : ∀ b ∈ rest, b < 256 := fun b hb => hx b (by simp [hb])
    simp only [b64encode, List.all_cons, Bool.and_eq_true, decide_eq_true_eq]
    exact ⟨(alphaFacts _ (by omega)).2.2, (alphaFacts _ (by omega)).2.2,
      (alphaFacts _ (by omega)).2.2, (alphaFacts _ (by omega)).2.2, ih hrest⟩

/-- The byte-for-byte base64 round trip through the decoder model. -/
theorem b64decode_encode (x : List Nat) (hx : ∀ b ∈ x, b < 256) :
    b64decode (String.mk (b64encode x)) = .ok x := by
  rw [b64decode]
  have htl : (String.mk (b64encode x)).toList = b64encode x := rfl
  rw [htl, if_pos (b64encode_ascii x hx)]
  simpa using a2bLoop_b64encode x hx []

/-- The encoding of a non-empty byte list is non-empty. -/
theorem b64encode_ne_nil (b : Nat) (rest : List Nat) : b64encode (b :: rest) ≠ [] := by
  rcases rest with _ | ⟨b2, _ | ⟨b3, r⟩⟩ <;> simp [b64encode]

/-- Claim C4 (counterexample): for the empty byte sequence, whose standard
base64 encoding is the empty string, the image item's data is falsy, so the
scan skips it: nothing is written and the not-found status is returned,
where the claim predicted a (empty) file write. -/
theorem c4_counterexample :
    String.mk (b64encode []) = "" ∧
    save_image_from_response [mkImageEvent (String.mk (b64encode []))] [] "tiny_image.png" =
      ([], .returned notFoundMsg) ∧
    (([], SaveResult.returned notFoundMsg) : FS × SaveResult) ≠
      (FS.write [] "tiny_image.png" [], .returned (savedMsg "tiny_image.png")) := by
  refine ⟨rfl, by decide, by decide⟩

/-- Claim C4 (amended): the base64 round trip decode(encode(x)) = x holds for
every byte sequence, and for every NON-EMPTY byte sequence x, a single event
with one image item whose data is the standard encoding of x makes
`save_image_from_response` write exactly the bytes x and return the success
status.  (For empty x the encoding is the empty string, which the scan's
truthiness test skips.) -/
theorem c4_roundtrip (x : List Nat) (hx : ∀ b ∈ x, b < 256) (hne : x ≠ [])
    (fs : FS) (fname : String) :
    b64decode (String.mk (b64encode x)) = .ok x ∧
    save_image_from_response [mkImageEvent (String.mk (b64encode x))] fs fname =
      (FS.write fs fname x, .returned (savedMsg fname)) := by
  have hdec := b64decode_encode x hx
  refine ⟨hdec, ?_⟩
  have hne2 : String.mk (b64encode x) ≠ "" := by
    intro hc
    rcases x with _ | ⟨b, rest⟩
    · exact hne rfl
    · exact b64encode_ne_nil b rest (by simpa using congrArg String.data hc)
  have hscan : scanEvents [mkImageEvent (String.mk (b64encode x))] =
      some (String.mk (b64encode x)) := by
    simp [scanEvents, mkImageEvent, imgPart, scanParts, partScan, respContent,
      scanItems, itemMatches, strTruthy, List.find?, hne2]
  simp [save_image_from_response, hscan, hdec]

/-- Witness for C4 at the PNG-magic bytes: encoding then running the saver
writes exactly those bytes and reports success. -/
theorem c4_witness :
    (∀ b ∈ ([137, 80, 78, 71] : List Nat), b < 256) ∧
    ([137, 80, 78, 71] : List Nat) ≠ [] ∧
    save_image_from_response
      [mkImageEvent (String.mk (b64encode [137, 80, 78, 71]))] [] "tiny_image.png" =
      (FS.write [] "tiny_image.png" [137, 80, 78, 71],
        .returned (savedMsg "tiny_image.png")) :=
  ⟨by decide, by decide,
    (c4_roundtrip [137, 80, 78, 71] (by decide) (by decide) [] "tiny_image.png").2⟩

/-- Claim C2 (counterexample): "QUJD!" is not valid standard base64 (it holds
a character outside the alphabet), yet the decoder discards the invalid
character, so `save_image_from_response` succeeds silently — it writes the
bytes of "ABC" and returns the success status instead of failing with a
decoding error. -/
theorem c2_counterexample :
    validStdBase64 "QUJD!" = false ∧
    save_image_from_response [mkImageEvent "QUJD!"] [] "tiny_image.png" =
      ([("tiny_image.png", [65, 66, 67])], .returned (savedMsg "tiny_image.png")) := by
  constructor <;> decide

/-- Claim C2 (amended): whenever base64-decoding the selected image data
raises (as it does for "not-valid-base64!!"), `save_image_from_response`
surfaces that decoding error to the caller: it neither skips the item nor
returns any normal status, not-found included.  (Not every invalid-base64
string raises: the decoder first discards characters outside the alphabet.) -/
theorem c2_decode_error_surfaced (events : List Event) (fs : FS) (fname : String)
    (d e : String) (hscan : scanEvents events = some d)
    (herr : b64decode d = .error e) :
    (save_image_from_response events fs fname).2 = .raised e ∧
    ∀ m, (save_image_from_response events fs fname).2 ≠ .returned m := by
  simp [save_image_from_response, hscan, herr]

/-- Witness for C2 at the spec's example input: data "not-valid-base64!!" is
selected, its decoding raises "Incorrect padding", and the call surfaces
exactly that error. -/
theorem c2_witness :
    scanEvents [mkImageEvent "not-valid-base64!!"] = some "not-valid-base64!!" ∧
    b64decode "not-valid-base64!!" = .error "Incorrect padding" ∧
    (save_image_from_response [mkImageEvent "not-valid-base64!!"] [] "tiny_image.png").2 =
      .raised "Incorrect padding" :=
  ⟨by decide, by rfl,
    (c2_decode_error_surfaced [mkImageEvent "not-valid-base64!!"] [] "tiny_image.png"
      "not-valid-base64!!" "Incorrect padding" (by decide) (by rfl)).1⟩

/-- Claim C9 (confirmed): decoding happens strictly before the file write, so
when decoding the selected data raises, the file system is left exactly as it
was — nothing is written to the output path. -/
theorem c9_no_write_on_decode_error (events : List Event) (fs : FS) (fname : String)
    (d e : String) (hscan : scanEvents events = some d)
    (herr : b64decode d = .error e) :
    (save_image_from_response events fs fname).1 = fs := by
  simp [save_image_from_response, hscan, herr]

/-- Witness for C9 at a concrete input: data "A" is selected, its decoding
raises, and a pre-existing file at the output path is untouched. -/
theorem c9_witness :
    scanEvents [mkImageEvent "A"] = some "A" ∧
    (b64decode "A").isOk = false ∧
    (save_image_from_response [mkImageEvent "A"] [("tiny_image.png", [1, 2, 3])]
      "tiny_image.png").1 = [("tiny_image.png", [1, 2, 3])] :=
  ⟨by decide, by decide,
    c9_no_write_on_decode_error [mkImageEvent "A"] [("tiny_image.png", [1, 2, 3])]
      "tiny_image.png" "A"
      "Invalid base64-encoded string: number of data characters cannot be 1 more than a multiple of 4"
      (by decide) (by rfl)⟩
